import Mathlib

/-!
Verification development for the AI_mezo interactive viewport and
annotation-overlay engine (`src/mezo/editor.py`).

The Python source keeps all state in a flet page session; the shallow
embedding below represents that state explicitly and translates each
relevant handler into a pure Lean function.  Floating-point values are
modelled with `ℚ` (the claims under scrutiny concern control flow,
clamping and exact pixel bookkeeping, not float rounding); Python's
banker's rounding `round` is modelled exactly by `pyRound`.
-/

namespace Mezo

/-- Python's `round` on rationals: round-half-to-even (banker's rounding),
matching `round(x)` / `round(x, 0)` in `editor.py`. -/
def pyRound (q : ℚ) : ℤ :=
  let n : ℤ := ⌊q⌋
  let frac : ℚ := q - (n : ℚ)
  if frac < 1/2 then n
  else if 1/2 < frac then n + 1
  else if n % 2 = 0 then n else n + 1

/-- `round(x, 5)` comparison helper: `round(x, 5)` in Python rounds to five
decimal places; two such values are equal iff the integers
`pyRound (x * 100000)` agree (the code only ever compares them). -/
def pyRound5 (q : ℚ) : ℤ :=
  pyRound (q * 100000)

/-- The four margins kept in the session under the key `'margin'`. -/
structure Margin where
  left : ℚ
  top : ℚ
  right : ℚ
  bottom : ℚ
deriving DecidableEq, Repr

/-- The slice of the flet session state read and written by the viewport
code of `editor.py` (`update_scale`, `viewer_interaction_end`).
`viewerOffset = none` models the absence of the `'viewer_offset'` session
key (checked by `update_scale` for first-use seeding); `scaleKey` models
the presence and value of the `'scale'` session key. -/
structure ViewerState where
  imageSize : Option (ℚ × ℚ)
  viewerSize : ℚ × ℚ
  viewerScale : ℚ
  windowScale : ℚ
  imageScale : ℚ
  scaleKey : Option ℚ
  mainOffset : ℤ × ℤ
  viewerOffset : Option (ℤ × ℤ)
  margin : Margin
deriving DecidableEq

/-- `update_scale(scale)` (editor.py lines 255-309).  Executes only when an
image is loaded; clamps the viewer scale to `[1.0, 15.0]`, recomputes the
window/image scales and the centered main offset, and on first use seeds
the viewer offset and zero margins. -/
def updateScale (st : ViewerState) (scale : ℚ) : ViewerState :=
  match st.imageSize with
  | none => st
  | some (imageWidth, imageHeight) =>
    let (viewerWidth, viewerHeight) := st.viewerSize
    let viewerScale0 := st.viewerScale
    -- viewer_scale = max(1.0, min(15.0, viewer_scale_0 * scale))
    let viewerScale := max 1 (min 15 (viewerScale0 * scale))
    let windowScale := min (min (viewerWidth / imageWidth) (viewerHeight / imageHeight)) 1
    let imageScale := windowScale * viewerScale
    let scaledImageWidth := imageWidth * imageScale
    let scaledImageHeight := imageHeight * imageScale
    let mainOffset : ℤ × ℤ :=
      (pyRound ((viewerWidth - scaledImageWidth) / 2),
       pyRound ((viewerHeight - scaledImageHeight) / 2))
    let (viewerOffset, margin) :=
      match st.viewerOffset with
      | none => (some mainOffset, (⟨0, 0, 0, 0⟩ : Margin))
      | some off => (some off, st.margin)
    { st with
        viewerScale := viewerScale
        windowScale := windowScale
        imageScale := imageScale
        mainOffset := mainOffset
        viewerOffset := viewerOffset
        margin := margin
        scaleKey := some (viewerScale / viewerScale0) }

/-- Folding a whole sequence of `update_scale` calls. -/
def updateScaleSeq (st : ViewerState) (factors : List ℚ) : ViewerState :=
  factors.foldl updateScale st

/-- The per-gesture values stored by `viewer_interaction_start` /
`viewer_interaction_update` (`'start_cursor'`, `'start_offset'`,
`'start_scale'`, `'move'`). -/
structure Gesture where
  startCursor : ℚ × ℚ
  startOffset : ℤ × ℤ
  startScale : ℚ
  move : Option (ℚ × ℚ)
deriving DecidableEq

/-- Outcome of `viewer_interaction_end`: the new margin and (rounded)
viewer offset for a pan or a zoom, a "scale limit reached" report, or the
image-space click coordinate handed to the active tool. -/
inductive EndResult where
  | panned (margin : Margin) (offset : ℤ × ℤ)
  | zoomed (margin : Margin) (offset : ℤ × ℤ)
  | scaleLimit
  | click (coord : ℤ × ℤ)
deriving DecidableEq

/-- The margin/offset clamping shared verbatim by the moving and scaling
branches of `viewer_interaction_end` (editor.py lines 433-448 and 491-506;
the two copies in the source are textually identical).  Arguments are the
candidate near margin, far margin and offset for one axis, the bounding box
length and scaled image length for that axis, and the rounded near/far
bounds. -/
def clampAxis (near far v bbLen scaledLen bNear bFar : ℚ) : ℚ × ℚ × ℚ :=
  if near < 0 then (0, bbLen - scaledLen, bNear)
  else if far < 0 then (bbLen - scaledLen, 0, bFar - scaledLen)
  else (near, far, v)

/-- `viewer_interaction_end(e)` (editor.py lines 369-560).  The handler
runs only with an image open, where `'viewer_offset'` and `'image_size'`
have always been seeded; their `getD` defaults are therefore unreachable. -/
def viewerInteractionEnd (st : ViewerState) (g : Gesture) : EndResult :=
  let imageScale := st.imageScale
  let imageWidth := (st.imageSize.getD (0, 0)).1
  let imageHeight := (st.imageSize.getD (0, 0)).2
  let startCursorX := g.startCursor.1
  let startCursorY := g.startCursor.2
  let viewerWidth := st.viewerSize.1
  let viewerHeight := st.viewerSize.2
  let startOffset := g.startOffset
  let viewerOffset := st.viewerOffset.getD st.mainOffset
  let viewerScale := st.viewerScale
  let windowScale := st.windowScale
  -- scale_limit = start_scale == 15 and viewer_scale == 15
  let scaleLimit := g.startScale = 15 ∧ viewerScale = 15
  let scaledImageWidth := imageWidth * imageScale
  let scaledImageHeight := imageHeight * imageScale
  let boundingBoxWidth := viewerWidth * (viewerScale - 1) + scaledImageWidth
  let boundingBoxHeight := viewerHeight * (viewerScale - 1) + scaledImageHeight
  let bx := (viewerWidth - boundingBoxWidth) / 2
  let byy := (viewerHeight - boundingBoxHeight) / 2
  let boundLeft : ℚ := (pyRound bx : ℤ)
  let boundTop : ℚ := (pyRound byy : ℤ)
  let boundRight : ℚ := (pyRound (bx + boundingBoxWidth) : ℤ)
  let boundBottom : ℚ := (pyRound (byy + boundingBoxHeight) : ℤ)
  match g.move with
  | some mv =>
    -- Moving branch
    let moveX := mv.1 - startCursorX
    let moveY := mv.2 - startCursorY
    let margin0 := st.margin
    let marginLeft := margin0.left + moveX
    let marginTop := margin0.top + moveY
    let marginRight := margin0.right - moveX
    let marginBottom := margin0.bottom - moveY
    let vx : ℚ := (viewerOffset.1 : ℚ) + moveX
    let vy : ℚ := (viewerOffset.2 : ℚ) + moveY
    let cx :=
      clampAxis marginLeft marginRight vx boundingBoxWidth scaledImageWidth
        boundLeft boundRight
    let cy :=
      clampAxis marginTop marginBottom vy boundingBoxHeight scaledImageHeight
        boundTop boundBottom
    .panned ⟨cx.1, cy.1, cx.2.1, cy.2.1⟩ (pyRound cx.2.2, pyRound cy.2.2)
  | none =>
    match st.scaleKey with
    | some scale =>
      if scaleLimit then
        -- falls through to the final branch, which reports the limit
        .scaleLimit
      else if pyRound5 imageScale = pyRound5 windowScale then
        -- Main scale state: snap to the centered offset, zero margins
        .zoomed ⟨0, 0, 0, 0⟩ st.mainOffset
      else
        let xScaleViewerOffset := (startCursorX - (startOffset.1 : ℚ)) * (1 - scale)
        let yScaleViewerOffset := (startCursorY - (startOffset.2 : ℚ)) * (1 - scale)
        let ux := (startOffset.1 : ℚ) + xScaleViewerOffset
        let uy := (startOffset.2 : ℚ) + yScaleViewerOffset
        let marginLeft := ux - boundLeft
        let marginTop := uy - boundTop
        let marginRight := boundRight - (ux + scaledImageWidth)
        let marginBottom := boundBottom - (uy + scaledImageHeight)
        let vx : ℚ := (viewerOffset.1 : ℚ) + (pyRound xScaleViewerOffset : ℤ)
        let vy : ℚ := (viewerOffset.2 : ℚ) + (pyRound yScaleViewerOffset : ℤ)
        let cx :=
          clampAxis marginLeft marginRight vx boundingBoxWidth scaledImageWidth
            boundLeft boundRight
        let cy :=
          clampAxis marginTop marginBottom vy boundingBoxHeight scaledImageHeight
            boundTop boundBottom
        .zoomed ⟨cx.1, cy.1, cx.2.1, cy.2.1⟩ (pyRound cx.2.2, pyRound cy.2.2)
    | none =>
      if scaleLimit then
        .scaleLimit
      else
        -- Click handling: coordinates relative to the real image scale
        .click
          (pyRound ((startCursorX - ((st.viewerOffset.getD st.mainOffset).1 : ℚ)) / imageScale),
           pyRound ((startCursorY - ((st.viewerOffset.getD st.mainOffset).2 : ℚ)) / imageScale))

/-- The scaled image width `image_width * image_scale` as recomputed by
`viewer_interaction_end`. -/
def scaledImageW (st : ViewerState) : ℚ :=
  (st.imageSize.getD (0, 0)).1 * st.imageScale

/-- The scaled image height `image_height * image_scale` as recomputed by
`viewer_interaction_end`. -/
def scaledImageH (st : ViewerState) : ℚ :=
  (st.imageSize.getD (0, 0)).2 * st.imageScale

/-- `bounding_box_width = viewer_width * (viewer_scale - 1) + scaled_image_width`. -/
def boundingBoxW (st : ViewerState) : ℚ :=
  st.viewerSize.1 * (st.viewerScale - 1) + scaledImageW st

/-- `bounding_box_height = viewer_height * (viewer_scale - 1) + scaled_image_height`. -/
def boundingBoxH (st : ViewerState) : ℚ :=
  st.viewerSize.2 * (st.viewerScale - 1) + scaledImageH st

/-- The fit-to-window state of the concrete claim scenario: an 800x600
image in an 800x600 viewport at `viewer_scale = 1`. -/
def fitState800 : ViewerState :=
  { imageSize := some (800, 600), viewerSize := (800, 600),
    viewerScale := 1, windowScale := 1, imageScale := 1,
    scaleKey := none, mainOffset := (0, 0),
    viewerOffset := some (0, 0), margin := ⟨0, 0, 0, 0⟩ }

/-- State of the claim scenario after zooming by factor 2, at the moment a
tap is processed: the previous zoom gesture's end consumed the `'scale'`
session key, and the viewer offset of the scenario is `(0, 0)`. -/
def tapState800 : ViewerState :=
  { updateScale fitState800 2 with scaleKey := none, viewerOffset := some (0, 0) }

/-- The tap gesture of the claim scenario: click at viewport point
`(400, 300)`, no accumulated move, scale unchanged during the gesture. -/
def tapGesture800 : Gesture :=
  { startCursor := (400, 300), startOffset := (0, 0), startScale := 2, move := none }

/-- A concrete zoom-reconciliation state: 800x600 image, 801x601 viewport
(`window_scale = 1`), zoomed from `viewer_scale = 1.25` to `1.5` (session
`'scale'` ratio 1.2), image panned to offset `(-100, -75)`. -/
def zoomState801 : ViewerState :=
  { imageSize := some (800, 600), viewerSize := (801, 601),
    viewerScale := 3/2, windowScale := 1, imageScale := 3/2,
    scaleKey := some (6/5), mainOffset := (-200, -150),
    viewerOffset := some (-100, -75), margin := ⟨0, 0, 0, 0⟩ }

/-- The zoom gesture ending in `zoomState801`: pinch focal point at
viewport point `(400, 300)`. -/
def zoomGesture801 : Gesture :=
  { startCursor := (400, 300), startOffset := (-100, -75), startScale := 5/4, move := none }

/-! ### Mask, compositor and annotation store -/

/-- One RGBA pixel, channels in `0..255`, modelled over `ℚ` (PIL does this
arithmetic on bytes; the per-channel quantisation is irrelevant to the
claims, which concern which pixels are written and with what inputs). -/
structure Color where
  r : ℚ
  g : ℚ
  b : ℚ
  a : ℚ
deriving DecidableEq

/-- The fully transparent white `(255, 255, 255, 0)` used both to
initialise masks/overlays (`Image.new('RGBA', ..., (255, 255, 255, 0))`)
and as the erasing ink of `remove_mezo_from_viewer`. -/
def initColor : Color := ⟨255, 255, 255, 0⟩

/-- The all-zero pixel produced by "over" compositing when both layers are
fully transparent. -/
def zeroColor : Color := ⟨0, 0, 0, 0⟩

/-- The standard "over" operator of `Image.alpha_composite(bottom, top)`
for non-premultiplied RGBA, exact over `ℚ`. -/
def alphaOver (bot top : Color) : Color :=
  let ao := top.a + bot.a * (255 - top.a) / 255
  if ao = 0 then zeroColor
  else
    ⟨(top.r * top.a + bot.r * bot.a * (255 - top.a) / 255) / ao,
     (top.g * top.a + bot.g * bot.a * (255 - top.a) / 255) / ao,
     (top.b * top.a + bot.b * bot.a * (255 - top.a) / 255) / ao,
     ao⟩

/-- The overlay mask raster, one RGBA value per integer pixel. -/
def Mask : Type := ℤ × ℤ → Color

/-- A freshly initialised, fully transparent mask. -/
def emptyMask : Mask := fun _ => initColor

/-- External primitives the engine delegates to: PIL's ellipse
rasterisation (`discPx`: the pixels covered by
`ellipse([x - r, y - r, x + r, y + r], fill=...)`, used by the erase;
`overlayPx`: the RGBA overlay produced by `add_mezo_to_viewer`'s two
ellipse draws — translucent fill, solid outline and center dot — on a
transparent overlay), and `math.sqrt` on floats (`sqrtQ`).  They are kept
as parameters: the engine's code treats them as black boxes, and the
claims are settled for every implementation satisfying the stated
support facts. -/
structure Prim where
  discPx : ℚ → ℚ → ℚ → ℤ × ℤ → Bool
  overlayPx : ℚ → ℚ → ℚ → ℤ × ℤ → Color
  sqrtQ : ℚ → ℚ

/-- Compositing one drawn circle onto the mask:
`mask = Image.alpha_composite(mask, overlay)` in `add_mezo_to_viewer`. -/
def paintPx (P : Prim) (x y radius : ℚ) (m : Mask) : Mask :=
  fun p => alphaOver (m p) (P.overlayPx x y radius p)

/-- Erasing one circle from the mask:
`mask_draw.ellipse([left_up, right_down], fill=(255, 255, 255, 0))` in
`remove_mezo_from_viewer` (ImageDraw on a same-mode image replaces pixel
values, so covered pixels become fully transparent). -/
def erasePx (P : Prim) (x y radius : ℚ) (m : Mask) : Mask :=
  fun p => if P.discPx x y radius p then initColor else m p

/-- One `mezo_data` record as fetched from the database:
`(mezo_id, image_id, center_x, center_y, diameter, square)`.  The
`image_id` foreign key is omitted (all modelled state is for the single
open image) and so is the derived `square = 0.25 * pi * diameter**2`
reporting field, which the engine itself never reads. -/
structure MezoRow where
  mezoId : ℕ
  centerX : ℚ
  centerY : ℚ
  diameter : ℚ
deriving DecidableEq

/-- The `(x, y, radius)` triple `(row[2], row[3], row[4] / 2)` passed to
`circles_intersect` for a fetched row. -/
def mezoCircle (row : MezoRow) : ℚ × ℚ × ℚ :=
  (row.centerX, row.centerY, row.diameter / 2)

/-- `circles_intersect(mezo1, mezo2)`:
`distance(x1, y1, x2, y2) < r1 + r2` with the Euclidean distance.  Since
the radii the program ever produces are nonnegative (halves of diameters
created from `math.sqrt` / `np.max` of distances), `sqrt(d) < r1 + r2` is
equivalent to `d < (r1 + r2)^2`, which is how the strict comparison is
embedded over `ℚ`. -/
def circlesIntersect (c1 c2 : ℚ × ℚ × ℚ) : Bool :=
  decide ((c2.1 - c1.1) ^ 2 + (c2.2.1 - c1.2.1) ^ 2 < (c1.2.2 + c2.2.2) ^ 2)

/-- The containment test of `remove_tool`:
`math.sqrt((x - x0)**2 + (y - y0)**2) <= radius` with
`radius = mezo['diameter'] / 2`, embedded by squaring as in
`circlesIntersect` (radii are nonnegative). -/
def containsPoint (coord : ℤ × ℤ) (m : MezoRow) : Bool :=
  decide (((coord.1 : ℚ) - m.centerX) ^ 2 + ((coord.2 : ℚ) - m.centerY) ^ 2
            ≤ (m.diameter / 2) ^ 2)

/-- The search loop of `remove_tool` (editor.py lines 812-820): scan
`list(mezo_data.values())[::-1]` — reverse insertion order — and `break`
at the first circle containing the click; `None` when no circle does. -/
def removeToolFind (coord : ℤ × ℤ) (rows : List MezoRow) : Option ℕ :=
  (rows.reverse.find? (containsPoint coord)).map (·.mezoId)

/-- Modelled from the spec's words, for comparison with `removeToolFind`:
"`find_containing(point)` — last-inserted circle whose Euclidean distance
from its center to `point` is ≤ its radius". -/
def specLastContaining (coord : ℤ × ℤ) (rows : List MezoRow) : Option ℕ :=
  ((rows.filter (containsPoint coord)).getLast?).map (·.mezoId)

/-- The argument of `remove_mezo`: Python's
`key: Union[str, int, None] = 'undo'`.  `none` models `key=None`
(falsy, early return); `undo` the string `'undo'`; `byId k` an integer
`mezo_id` (always positive — sqlite AUTOINCREMENT — so never falsy). -/
inductive RemoveKey where
  | undo
  | byId (k : ℕ)
deriving DecidableEq

/-- The editor session state touched by the annotation tools: the current
mask (`'mask'`), the undo snapshot stack (`'prev_masks'`, a base64 PNG —
a lossless encoding, modelled as the mask itself), the per-image
annotation records (`'mezo_data'`; `none` models the key being absent),
the pending manual-select center (`'current_coord'`), and the next
AUTOINCREMENT id of the `mezo_data` table. -/
structure Session where
  mask : Mask
  prevMasks : List Mask
  mezoData : Option (List MezoRow)
  currentCoord : Option (ℤ × ℤ)
  nextId : ℕ

/-- The annotation rows of the open image, in insertion (= ascending
`mezo_id`, = paint) order, as returned by
`SELECT * FROM mezo_data WHERE image_id = ?`. -/
def dbRows (s : Session) : List MezoRow :=
  s.mezoData.getD []

/-- The history push of `add_mezo_to_viewer` (editor.py lines 625-638):
append the current mask snapshot; `if len(prev_masks) > 3: del
prev_masks[0]`. -/
def pushHistory (prev : List Mask) (m : Mask) : List Mask :=
  let appended := prev ++ [m]
  if 3 < appended.length then appended.drop 1 else appended

/-- `add_mezo_to_viewer(x, y, radius, recursive)` (editor.py lines
605-682): when not recursive, push the pre-mutation mask onto the
history; then alpha-composite the circle overlay onto the mask (the file
writes mirror the in-memory mask and are not modelled separately). -/
def addMezoToViewer (P : Prim) (x y radius : ℚ) (recursive : Bool) (s : Session) : Session :=
  let prev := if recursive then s.prevMasks else pushHistory s.prevMasks s.mask
  { s with prevMasks := prev, mask := paintPx P x y radius s.mask }

/-- `add_mezo_to_db(center, diameter)` (editor.py lines 562-603): INSERT a
new record (AUTOINCREMENT id) and refresh the session's `mezo_data` from
the database, which appends the new row after the existing ones. -/
def addMezoToDb (center : ℚ × ℚ) (diameter : ℚ) (s : Session) : Session :=
  { s with
      mezoData := some (dbRows s ++ [⟨s.nextId, center.1, center.2, diameter⟩])
      nextId := s.nextId + 1 }

/-- `manual_select(coord)` (editor.py lines 727-795).  First click: record
`current_coord` (the transient center marker is drawn on a separate canvas
layer, not on the mask).  Second click: radius is the Euclidean distance
between the clicks (`math.sqrt`, via `P.sqrtQ`), the pending point is
cleared, and the mezo is added to the database and painted (with a
history push). -/
def manualSelect (P : Prim) (coord : ℤ × ℤ) (s : Session) : Session :=
  match s.currentCoord with
  | none => { s with currentCoord := some coord }
  | some c0 =>
    let radius := P.sqrtQ (((coord.1 : ℚ) - (c0.1 : ℚ)) ^ 2 + ((coord.2 : ℚ) - (c0.2 : ℚ)) ^ 2)
    let s1 := { s with currentCoord := none }
    let s2 := addMezoToDb ((c0.1 : ℚ), (c0.2 : ℚ)) (radius * 2) s1
    addMezoToViewer P (c0.1 : ℚ) (c0.2 : ℚ) radius false s2

/-- `magic_select(coord)` (editor.py lines 684-725) after the segmentation
oracle returned: the SAM prediction, centroid and maximal distance are
the external oracle's output and enter as the `(ox, oy, oradius)`
parameters; the engine then inserts `diameter = radius * 2` and paints
(with a history push). -/
def magicSelect (P : Prim) (ox oy : ℤ) (oradius : ℚ) (s : Session) : Session :=
  let s1 := addMezoToDb ((ox : ℚ), (oy : ℚ)) (oradius * 2) s
  addMezoToViewer P (ox : ℚ) (oy : ℚ) oradius false s1

/-- `remove_mezo_from_viewer(mezo_to_removed)` (editor.py lines
1475-1511): make the circle `(row[2], row[3], row[4] / 2)` fully
transparent in the mask. -/
def removeMezoFromViewer (P : Prim) (row : MezoRow) (m : Mask) : Mask :=
  erasePx P row.centerX row.centerY (row.diameter / 2) m

/-- Loop state of `recursive_removing(start_mezo, all_mezo)` (editor.py
lines 1513-1538): `done` is the already-scanned prefix of the enumerated
list, `rest` the remainder.  For each intersecting row the circle is
erased and the function recurses with that row against the list minus the
row (`new_all_mezo.pop(i)` = `done ++ rs`); the outer scan then
continues. -/
def recursiveRemovingAux (P : Prim) (start : MezoRow) (done rest : List MezoRow)
    (m : Mask) : Mask :=
  match rest with
  | [] => m
  | row :: rs =>
    if circlesIntersect (mezoCircle start) (mezoCircle row) then
      let m1 := removeMezoFromViewer P row m
      let m2 := recursiveRemovingAux P row [] (done ++ rs) m1
      recursiveRemovingAux P start (done ++ [row]) rs m2
    else
      recursiveRemovingAux P start (done ++ [row]) rs m
termination_by (done.length + rest.length, rest.length)
decreasing_by
· simp only [List.length_append, List.length_cons, List.length_nil]
  exact Prod.Lex.left _ _ (by omega)
· simp only [List.length_append, List.length_cons, List.length_nil]
  have h : done.length + 1 + rs.length = done.length + (rs.length + 1) := by omega
  rw [h]
  exact Prod.Lex.right _ (by omega)
· simp only [List.length_append, List.length_cons, List.length_nil]
  have h : done.length + 1 + rs.length = done.length + (rs.length + 1) := by omega
  rw [h]
  exact Prod.Lex.right _ (by omega)

/-- `recursive_removing(start_mezo, all_mezo)` as called by
`remove_mezo`. -/
def recursiveRemoving (P : Prim) (start : MezoRow) (allMezo : List MezoRow)
    (m : Mask) : Mask :=
  recursiveRemovingAux P start [] allMezo m

/-- Loop state of `recursive_adding(start_mezo, all_mezo)` (editor.py
lines 1540-1567), same traversal as `recursiveRemovingAux` but repainting
each intersecting row with `add_mezo_to_viewer(..., recursive=True)`
(no history push). -/
def recursiveAddingAux (P : Prim) (start : MezoRow) (done rest : List MezoRow)
    (m : Mask) : Mask :=
  match rest with
  | [] => m
  | row :: rs =>
    if circlesIntersect (mezoCircle start) (mezoCircle row) then
      let m1 := paintPx P row.centerX row.centerY (row.diameter / 2) m
      let m2 := recursiveAddingAux P row [] (done ++ rs) m1
      recursiveAddingAux P start (done ++ [row]) rs m2
    else
      recursiveAddingAux P start (done ++ [row]) rs m
termination_by (done.length + rest.length, rest.length)
decreasing_by
· simp only [List.length_append, List.length_cons, List.length_nil]
  exact Prod.Lex.left _ _ (by omega)
· simp only [List.length_append, List.length_cons, List.length_nil]
  have h : done.length + 1 + rs.length = done.length + (rs.length + 1) := by omega
  rw [h]
  exact Prod.Lex.right _ (by omega)
· simp only [List.length_append, List.length_cons, List.length_nil]
  have h : done.length + 1 + rs.length = done.length + (rs.length + 1) := by omega
  rw [h]
  exact Prod.Lex.right _ (by omega)

/-- `recursive_adding(start_mezo, all_mezo)` as called by `remove_mezo`. -/
def recursiveAdding (P : Prim) (start : MezoRow) (allMezo : List MezoRow)
    (m : Mask) : Mask :=
  recursiveAddingAux P start [] allMezo m

/-- The row `remove_mezo` fetches: for `'undo'`,
`SELECT ... ORDER BY mezo_id DESC LIMIT 1` (the row with the maximal
`mezo_id`); for an integer key, `SELECT ... WHERE mezo_id = ?`. -/
def fetchRow (key : RemoveKey) (rows : List MezoRow) : Option MezoRow :=
  match key with
  | .undo =>
    rows.foldl
      (fun acc r =>
        match acc with
        | none => some r
        | some a => if a.mezoId < r.mezoId then some r else some a)
      none
  | .byId k => rows.find? (fun r => r.mezoId == k)

/-- `remove_mezo(key)` (editor.py lines 1439-1633).  `key = None` returns
immediately.  Otherwise: fetch the selected row, DELETE it, refresh the
session's `mezo_data`; then if snapshots exist *and* the key is
`'undo'`, pop the most recent snapshot and restore it as the mask;
otherwise erase the selected circle and run the recursive
erase-then-repaint overlap pass over the remaining rows.  (A failed fetch
raises before any mutation — `mezo_to_remove[0]` on `None` — leaving the
state unchanged; modelled as the identity.) -/
def removeMezo (P : Prim) (key : Option RemoveKey) (s : Session) : Session :=
  match key with
  | none => s
  | some k =>
    match fetchRow k (dbRows s) with
    | none => s
    | some row =>
      let rows := (dbRows s).filter (fun r => !(r.mezoId == row.mezoId))
      let s1 := { s with mezoData := some rows }
      if 0 < s.prevMasks.length ∧ k = RemoveKey.undo then
        { s1 with
            prevMasks := s.prevMasks.dropLast
            mask := s.prevMasks.getLast?.getD s.mask }
      else
        let m1 := removeMezoFromViewer P row s.mask
        let m2 := recursiveRemoving P row rows m1
        let m3 := recursiveAdding P row rows m2
        { s1 with mask := m3 }

/-- `remove_tool(coord)` (editor.py lines 797-823): find the clicked mezo
(or `None`) and hand it to `remove_mezo`. -/
def removeTool (P : Prim) (coord : ℤ × ℤ) (s : Session) : Session :=
  removeMezo P ((removeToolFind coord (dbRows s)).map RemoveKey.byId) s

/-- The Ctrl+Z branch of `on_keyboard` (editor.py lines 1431-1437):
`remove_mezo()` (defaulting to `'undo'`) runs only when `'mezo_data'`
exists, no `'current_coord'` is pending, and the mezo collection is
nonempty. -/
def onKeyboardCtrlZ (P : Prim) (s : Session) : Session :=
  if s.mezoData.isSome ∧ s.currentCoord.isNone ∧ 0 < (dbRows s).length then
    removeMezo P (some RemoveKey.undo) s
  else
    s

/-- The session resets of `open_image` (editor.py lines 825-960) relevant
to the annotation state: fresh mezo data and mask for the newly opened
image, the pending manual-select point cleared, and the undo history
re-initialised to `[]` (`page.session.set('prev_masks', [])`). -/
def openImageSession (newMezo : List MezoRow) (newMask : Mask) (nid : ℕ)
    (_s : Session) : Session :=
  { mask := newMask, prevMasks := [], mezoData := some newMezo,
    currentCoord := none, nextId := nid }

/-- Painting a list of annotations in insertion order onto a mask (what
repeated creation via `add_mezo_to_viewer` does to the raster). -/
def paintList (P : Prim) (rows : List MezoRow) (m : Mask) : Mask :=
  rows.foldl (fun acc r => paintPx P r.centerX r.centerY (r.diameter / 2) acc) m

/-- The rasterisation support fact tying the two PIL primitives together:
everything `add_mezo_to_viewer` draws for a circle lies inside the region
its erase clears, so outside that region the overlay is still the
transparent initial color.  (PIL's fill covers the drawn ellipse
including its inward outline; it holds for the 4px center dot whenever
the radius is at least 2.) -/
def overlaySupported (P : Prim) (row : MezoRow) : Prop :=
  ∀ p, P.discPx row.centerX row.centerY (row.diameter / 2) p = false →
    P.overlayPx row.centerX row.centerY (row.diameter / 2) p = initColor

/-- A concrete instance of the external primitives for witnesses: the
disc is the closed Euclidean disc, the overlay is the translucent fill
`(191, 255, 0, 128)` on exactly that disc, and the square root is the
zero function (witnesses only evaluate it at `0`, where `math.sqrt`
returns `0`). -/
def simplePrim : Prim where
  discPx := fun x y radius p =>
    decide (((p.1 : ℚ) - x) ^ 2 + ((p.2 : ℚ) - y) ^ 2 ≤ radius ^ 2)
  overlayPx := fun x y radius p =>
    if ((p.1 : ℚ) - x) ^ 2 + ((p.2 : ℚ) - y) ^ 2 ≤ radius ^ 2 then
      ⟨191, 255, 0, 128⟩
    else initColor
  sqrtQ := fun _ => 0

/-! ### Theorems -/

/-- C3: for every sequence of `update_scale(factor)` calls with arbitrary
factors, after each call the stored `viewer_scale` lies in `[1.0, 15.0]`.
(Every prefix of a sequence is itself a sequence, so the statement over
`updateScaleSeq` covers the state after each individual call.) -/
theorem viewer_scale_bounded (st : ViewerState) (factors : List ℚ)
    (h1 : 1 ≤ st.viewerScale) (h15 : st.viewerScale ≤ 15) :
    1 ≤ (updateScaleSeq st factors).viewerScale ∧
      (updateScaleSeq st factors).viewerScale ≤ 15 := by
  induction factors generalizing st with
  | nil => exact ⟨h1, h15⟩
  | cons f fs ih =>
    refine ih (updateScale st f) ?_ ?_
    · unfold updateScale
      match hi : st.imageSize with
      | none => simpa [hi] using h1
      | some sz =>
        simp only [hi]
        exact le_max_left 1 _
    · unfold updateScale
      match hi : st.imageSize with
      | none => simpa [hi] using h15
      | some sz =>
        simp only [hi]
        exact max_le (by norm_num) (min_le_left 15 _)

/-- Witness for `viewer_scale_bounded` at a concrete state and factor
sequence (zoom far past both limits). -/
theorem viewer_scale_bounded_witness :
    1 ≤ (updateScaleSeq fitState800 [20, 1/100]).viewerScale ∧
      (updateScaleSeq fitState800 [20, 1/100]).viewerScale ≤ 15 :=
  viewer_scale_bounded _ _ (by norm_num [fitState800]) (by norm_num [fitState800])

/-- Both components of a clamped margin pair are nonnegative, provided the
bounding box is at least as large as the scaled image. -/
lemma clampAxis_nonneg (near far v bbLen scaledLen bNear bFar : ℚ)
    (hbb : 0 ≤ bbLen - scaledLen) :
    0 ≤ (clampAxis near far v bbLen scaledLen bNear bFar).1 ∧
      0 ≤ (clampAxis near far v bbLen scaledLen bNear bFar).2.1 := by
  unfold clampAxis
  split_ifs with h1 h2 <;>
    exact ⟨by simp; try linarith, by simp; try linarith⟩

/-- Clamping preserves the margin-sum identity: if the candidate margins
sum to `bbLen - scaledLen`, so do the clamped ones. -/
lemma clampAxis_sum (near far v bbLen scaledLen bNear bFar : ℚ)
    (hsum : near + far = bbLen - scaledLen) :
    (clampAxis near far v bbLen scaledLen bNear bFar).1 +
      (clampAxis near far v bbLen scaledLen bNear bFar).2.1 = bbLen - scaledLen := by
  unfold clampAxis
  split_ifs <;> (simp; try linarith)

/-- C4: when a gesture is classified as a tap (no accumulated `'move'`,
no pending `'scale'`, scale limit not active), the reported image point
is `round((viewport_point - viewer_offset) / image_scale)` componentwise;
and in the concrete scenario, an 800x600 image in an 800x600 viewport has
`window_scale = 1`, zooming by factor 2 gives `viewer_scale = 2` and
`image_scale = 2`, and a click at viewport point `(400, 300)` with
viewer offset `(0, 0)` maps to image point `(200, 150)`. -/
theorem tap_click_image_mapping (st : ViewerState) (g : Gesture)
    (hmove : g.move = none) (hscale : st.scaleKey = none)
    (hlimit : ¬(g.startScale = 15 ∧ st.viewerScale = 15)) :
    viewerInteractionEnd st g =
      .click
        (pyRound ((g.startCursor.1 - ((st.viewerOffset.getD st.mainOffset).1 : ℚ)) /
            st.imageScale),
         pyRound ((g.startCursor.2 - ((st.viewerOffset.getD st.mainOffset).2 : ℚ)) /
            st.imageScale)) ∧
    (updateScale fitState800 2).windowScale = 1 ∧
    (updateScale fitState800 2).viewerScale = 2 ∧
    (updateScale fitState800 2).imageScale = 2 ∧
    viewerInteractionEnd tapState800 tapGesture800 = .click (200, 150) := by
  refine ⟨?_,
    by norm_num [updateScale, fitState800, min_def, max_def],
    by norm_num [updateScale, fitState800, min_def, max_def],
    by norm_num [updateScale, fitState800, min_def, max_def],
    by norm_num [viewerInteractionEnd, tapState800, tapGesture800, fitState800,
      updateScale, pyRound, pyRound5, min_def, max_def]⟩
  simp only [viewerInteractionEnd, hmove, hscale]
  rw [if_neg hlimit]

/-- C5 (amended): after any pan or zoom reconciliation at gesture end all
four margins are nonnegative (for a viewport of nonnegative size at a
viewer scale of at least 1); the pan branch moreover preserves the exact
sum identities `margin.left + margin.right = bounding_box_width -
scaled_image_width` (and the vertical analogue) whenever they held before
the gesture.  The exact sum identity is *not* guaranteed by the zoom
branch, whose margins are measured against bounds rounded to whole
pixels — see `margin_sum_counterexample`. -/
theorem margin_reconciliation (st : ViewerState) (g : Gesture) (m : Margin) (off : ℤ × ℤ)
    (hvw : 0 ≤ st.viewerSize.1) (hvh : 0 ≤ st.viewerSize.2) (hvs : 1 ≤ st.viewerScale) :
    (viewerInteractionEnd st g = .panned m off →
        (0 ≤ m.left ∧ 0 ≤ m.top ∧ 0 ≤ m.right ∧ 0 ≤ m.bottom) ∧
        (st.margin.left + st.margin.right = boundingBoxW st - scaledImageW st →
          m.left + m.right = boundingBoxW st - scaledImageW st) ∧
        (st.margin.top + st.margin.bottom = boundingBoxH st - scaledImageH st →
          m.top + m.bottom = boundingBoxH st - scaledImageH st)) ∧
    (viewerInteractionEnd st g = .zoomed m off →
        0 ≤ m.left ∧ 0 ≤ m.top ∧ 0 ≤ m.right ∧ 0 ≤ m.bottom) := by
  have hW : 0 ≤ (st.viewerSize.1 * (st.viewerScale - 1) +
      (st.imageSize.getD (0, 0)).1 * st.imageScale) -
      (st.imageSize.getD (0, 0)).1 * st.imageScale := by
    have he : (st.viewerSize.1 * (st.viewerScale - 1) +
        (st.imageSize.getD (0, 0)).1 * st.imageScale) -
        (st.imageSize.getD (0, 0)).1 * st.imageScale =
        st.viewerSize.1 * (st.viewerScale - 1) := by ring
    rw [he]
    exact mul_nonneg hvw (by linarith)
  have hH : 0 ≤ (st.viewerSize.2 * (st.viewerScale - 1) +
      (st.imageSize.getD (0, 0)).2 * st.imageScale) -
      (st.imageSize.getD (0, 0)).2 * st.imageScale := by
    have he : (st.viewerSize.2 * (st.viewerScale - 1) +
        (st.imageSize.getD (0, 0)).2 * st.imageScale) -
        (st.imageSize.getD (0, 0)).2 * st.imageScale =
        st.viewerSize.2 * (st.viewerScale - 1) := by ring
    rw [he]
    exact mul_nonneg hvh (by linarith)
  constructor
  · intro h
    cases hgm : g.move with
    | none =>
      simp only [viewerInteractionEnd, hgm] at h
      cases hsk : st.scaleKey with
      | none => simp only [hsk] at h; split_ifs at h
      | some sc => simp only [hsk] at h; split_ifs at h
    | some mv =>
      simp only [viewerInteractionEnd, hgm] at h
      rw [EndResult.panned.injEq] at h
      obtain ⟨hm, -⟩ := h
      subst hm
      refine ⟨⟨(clampAxis_nonneg _ _ _ _ _ _ _ hW).1,
        (clampAxis_nonneg _ _ _ _ _ _ _ hH).1,
        (clampAxis_nonneg _ _ _ _ _ _ _ hW).2,
        (clampAxis_nonneg _ _ _ _ _ _ _ hH).2⟩, ?_, ?_⟩
      · intro hx
        unfold boundingBoxW scaledImageW at hx ⊢
        exact clampAxis_sum _ _ _ _ _ _ _ (by linarith)
      · intro hy
        unfold boundingBoxH scaledImageH at hy ⊢
        exact clampAxis_sum _ _ _ _ _ _ _ (by linarith)
  · intro h
    cases hgm : g.move with
    | some mv => simp only [viewerInteractionEnd, hgm] at h; simp at h
    | none =>
      simp only [viewerInteractionEnd, hgm] at h
      cases hsk : st.scaleKey with
      | none => simp only [hsk] at h; split_ifs at h
      | some sc =>
        simp only [hsk] at h
        split_ifs at h with hl hmain
        · rw [EndResult.zoomed.injEq] at h
          obtain ⟨hm, -⟩ := h
          subst hm
          refine ⟨by norm_num, by norm_num, by norm_num, by norm_num⟩
        · rw [EndResult.zoomed.injEq] at h
          obtain ⟨hm, -⟩ := h
          subst hm
          exact ⟨(clampAxis_nonneg _ _ _ _ _ _ _ hW).1,
            (clampAxis_nonneg _ _ _ _ _ _ _ hH).1,
            (clampAxis_nonneg _ _ _ _ _ _ _ hW).2,
            (clampAxis_nonneg _ _ _ _ _ _ _ hH).2⟩

/-- Witness for `margin_reconciliation` at the concrete zoom
reconciliation `zoomState801` / `zoomGesture801`. -/
theorem margin_reconciliation_witness :
    0 ≤ (⟨200, 150, 201, 151⟩ : Margin).left ∧
      0 ≤ (⟨200, 150, 201, 151⟩ : Margin).top ∧
      0 ≤ (⟨200, 150, 201, 151⟩ : Margin).right ∧
      0 ≤ (⟨200, 150, 201, 151⟩ : Margin).bottom :=
  (margin_reconciliation zoomState801 zoomGesture801 ⟨200, 150, 201, 151⟩ (-200, -150)
      (by norm_num [zoomState801]) (by norm_num [zoomState801])
      (by norm_num [zoomState801])).2
    (by norm_num [viewerInteractionEnd, zoomState801, zoomGesture801, clampAxis,
      pyRound, pyRound5])

/-- C5 counterexample: in the unclamped zoom branch the margins are
measured against whole-pixel-rounded bounds, so
`margin.left + margin.right` (here `401`) differs from
`bounding_box_width - scaled_image_width` (here `400.5`). -/
theorem margin_sum_counterexample :
    viewerInteractionEnd zoomState801 zoomGesture801 =
      .zoomed ⟨200, 150, 201, 151⟩ (-200, -150) ∧
    ¬((200 : ℚ) + 201 = boundingBoxW zoomState801 - scaledImageW zoomState801) := by
  constructor
  · norm_num [viewerInteractionEnd, zoomState801, zoomGesture801, clampAxis,
      pyRound, pyRound5]
  · norm_num [boundingBoxW, scaledImageW, zoomState801]

/-- Witness for `tap_click_image_mapping` at the concrete tap scenario. -/
theorem tap_click_image_mapping_witness :
    viewerInteractionEnd tapState800 tapGesture800 =
      .click
        (pyRound ((tapGesture800.startCursor.1 -
            ((tapState800.viewerOffset.getD tapState800.mainOffset).1 : ℚ)) /
            tapState800.imageScale),
         pyRound ((tapGesture800.startCursor.2 -
            ((tapState800.viewerOffset.getD tapState800.mainOffset).2 : ℚ)) /
            tapState800.imageScale)) :=
  (tap_click_image_mapping tapState800 tapGesture800 rfl rfl (by decide)).1

/-- `find?` returns the head of the filtered list. -/
lemma find?_eq_head?_filter {α : Type} (p : α → Bool) (l : List α) :
    l.find? p = (l.filter p).head? := by
  induction l with
  | nil => rfl
  | cons a t ih =>
    cases h : p a
    · rw [List.find?_cons_of_neg _ (by simp [h]), List.filter_cons_of_neg (by simp [h]), ih]
    · rw [List.find?_cons_of_pos _ h, List.filter_cons_of_pos h, List.head?_cons]

/-- C6: the Remove tool's scan selects exactly the last-inserted
annotation containing the click (reverse insertion order, so the
topmost-painted circle wins) — it agrees with the spec's
`find_containing` description — and selects none precisely when no stored
annotation contains the point. -/
theorem remove_tool_selects_topmost (coord : ℤ × ℤ) (rows : List MezoRow) :
    removeToolFind coord rows = specLastContaining coord rows ∧
    (removeToolFind coord rows = none ↔
      ∀ r ∈ rows, containsPoint coord r = false) := by
  constructor
  · unfold removeToolFind specLastContaining
    rw [find?_eq_head?_filter, List.filter_reverse, List.head?_reverse]
  · unfold removeToolFind
    rw [Option.map_eq_none', List.find?_eq_none]
    constructor
    · intro hall r hr
      have hx := hall r (List.mem_reverse.mpr hr)
      simpa using hx
    · intro hall r hr
      simp [hall r (List.mem_reverse.mp hr)]

/-- C10: for every Ctrl+Z keyboard event, if a pending manual-select
center point exists, or the annotation collection for the current image
is absent or empty, no mutation occurs at all; the undo removal runs
exactly when annotations exist and no center point is pending. -/
theorem ctrlz_guard (P : Prim) (s : Session) :
    (s.currentCoord.isSome = true ∨ s.mezoData = none ∨ s.mezoData = some [] →
      onKeyboardCtrlZ P s = s) ∧
    (∀ l, s.mezoData = some l → l ≠ [] → s.currentCoord = none →
      onKeyboardCtrlZ P s = removeMezo P (some RemoveKey.undo) s) := by
  constructor
  · intro h
    unfold onKeyboardCtrlZ
    rw [if_neg]
    rcases h with h | h | h
    · rintro ⟨-, h2, -⟩
      rw [Option.isNone_iff_eq_none] at h2
      rw [h2] at h
      simp at h
    · rintro ⟨h1, -, -⟩
      rw [h] at h1
      simp at h1
    · rintro ⟨-, -, h3⟩
      unfold dbRows at h3
      rw [h] at h3
      simp at h3
  · intro l hl hne hcc
    unfold onKeyboardCtrlZ
    rw [if_pos]
    refine ⟨by simp [hl], by simp [hcc], ?_⟩
    unfold dbRows
    rw [hl]
    simpa using List.length_pos.mpr hne

/-- A session with a pending manual-select center point, for the
`ctrlz_guard` witness. -/
def pendingCoordSession : Session :=
  { mask := emptyMask, prevMasks := [], mezoData := some [],
    currentCoord := some (3, 4), nextId := 1 }

/-- Witness for `ctrlz_guard`: a Ctrl+Z with a pending center point
leaves the session untouched. -/
theorem ctrlz_guard_witness :
    onKeyboardCtrlZ simplePrim pendingCoordSession = pendingCoordSession :=
  (ctrlz_guard simplePrim pendingCoordSession).1 (Or.inl rfl)

/-- A session mid-manual-selection whose pending center is `(100, 100)`,
on a clean mask. -/
def degenerateSession : Session :=
  { mask := emptyMask, prevMasks := [], mezoData := some [],
    currentCoord := some (100, 100), nextId := 1 }

/-- C8 counterexample: a second Manual-Select click on the recorded
center point `(100, 100)` is *not* rejected — a record with diameter `0`
is inserted into the store (`math.sqrt(0) = 0`, and `manual_select` has
no degenerate-gesture check). -/
theorem degenerate_manual_select_counterexample :
    (manualSelect simplePrim (100, 100) degenerateSession).mezoData =
      some [⟨1, 100, 100, 0⟩] ∧
    (manualSelect simplePrim (100, 100) degenerateSession).mezoData ≠
      degenerateSession.mezoData := by
  constructor
  · simp [manualSelect, degenerateSession, addMezoToDb, addMezoToViewer, dbRows,
      simplePrim]
  · simp [manualSelect, degenerateSession, addMezoToDb, addMezoToViewer, dbRows,
      simplePrim]

/-- C8 (amended): two Manual-Select clicks on the same image point are not
rejected: the pending point is consumed and an annotation with center at
that point and diameter `0` is appended to the store (and painted). -/
theorem degenerate_manual_select_amended (P : Prim) (s : Session) (c : ℤ × ℤ)
    (l : List MezoRow) (hcc : s.currentCoord = some c) (hmd : s.mezoData = some l)
    (hsq : P.sqrtQ 0 = 0) :
    (manualSelect P c s).mezoData =
      some (l ++ [⟨s.nextId, (c.1 : ℚ), (c.2 : ℚ), 0⟩]) ∧
    (manualSelect P c s).currentCoord = none := by
  unfold manualSelect
  rw [hcc]
  have harg : (((c.1 : ℚ) - (c.1 : ℚ)) ^ 2 + ((c.2 : ℚ) - (c.2 : ℚ)) ^ 2) = 0 := by ring
  simp only [harg, hsq, addMezoToViewer, addMezoToDb, dbRows, hmd]
  constructor
  · simp
  · trivial

/-- Witness for `degenerate_manual_select_amended` at the concrete
session `degenerateSession`. -/
theorem degenerate_manual_select_amended_witness :
    (manualSelect simplePrim (100, 100) degenerateSession).mezoData =
      some ([] ++ [⟨degenerateSession.nextId, ((100 : ℤ) : ℚ), ((100 : ℤ) : ℚ), 0⟩]) ∧
    (manualSelect simplePrim (100, 100) degenerateSession).currentCoord = none :=
  degenerate_manual_select_amended simplePrim degenerateSession (100, 100) [] rfl rfl rfl

/-- A session holding exactly one stored annotation (id 1, center
`(50, 50)`, diameter 10) and an empty undo history. -/
def singleRowSession : Session :=
  { mask := paintList simplePrim [⟨1, 50, 50, 10⟩] emptyMask, prevMasks := [],
    mezoData := some [⟨1, 50, 50, 10⟩], currentCoord := none, nextId := 2 }

/-- C2 counterexample: a RemoveTool deletion (`remove_mezo` with an
integer key) deletes the store record but pushes *no* undo snapshot: the
history stays empty rather than gaining the pre-mutation mask. -/
theorem remove_tool_no_snapshot_counterexample :
    (removeMezo simplePrim (some (RemoveKey.byId 1)) singleRowSession).mezoData =
      some [] ∧
    (removeMezo simplePrim (some (RemoveKey.byId 1)) singleRowSession).prevMasks = [] ∧
    ¬((removeMezo simplePrim (some (RemoveKey.byId 1)) singleRowSession).prevMasks.length =
        singleRowSession.prevMasks.length + 1) := by
  refine ⟨?_, rfl, by simp [singleRowSession, removeMezo, fetchRow, dbRows]⟩
  simp [removeMezo, fetchRow, dbRows, singleRowSession]

/-- C2 (amended): MagicSelect and ManualSelect creation push an undo
snapshot of the mask as it was immediately before the mutation
(`add_mezo_to_viewer` with `recursive=False`); a RemoveTool deletion
(`remove_mezo` with an integer key) pushes no snapshot at all. -/
theorem snapshot_on_create_only (P : Prim) (s sm : Session) (c c0 : ℤ × ℤ)
    (ox oy : ℤ) (oradius : ℚ) (k : ℕ) (hcc : s.currentCoord = some c0) :
    (manualSelect P c s).prevMasks = pushHistory s.prevMasks s.mask ∧
    (magicSelect P ox oy oradius sm).prevMasks = pushHistory sm.prevMasks sm.mask ∧
    (removeMezo P (some (RemoveKey.byId k)) sm).prevMasks = sm.prevMasks := by
  refine ⟨?_, rfl, ?_⟩
  · unfold manualSelect
    rw [hcc]
    rfl
  · cases hf : fetchRow (RemoveKey.byId k) (dbRows sm) with
    | none => simp [removeMezo, hf]
    | some row => simp [removeMezo, hf]

/-- Witness for `snapshot_on_create_only` at concrete sessions. -/
theorem snapshot_on_create_only_witness :
    (manualSelect simplePrim (100, 100) degenerateSession).prevMasks =
      pushHistory degenerateSession.prevMasks degenerateSession.mask ∧
    (magicSelect simplePrim 50 50 5 singleRowSession).prevMasks =
      pushHistory singleRowSession.prevMasks singleRowSession.mask ∧
    (removeMezo simplePrim (some (RemoveKey.byId 1)) singleRowSession).prevMasks =
      singleRowSession.prevMasks :=
  snapshot_on_create_only simplePrim degenerateSession singleRowSession
    (100, 100) (100, 100) 50 50 5 1 rfl

/-- A session with one stored annotation and one undo snapshot, used to
exercise the undo fast path. -/
def snapshotSession : Session :=
  { mask := paintList simplePrim [⟨1, 50, 50, 10⟩] emptyMask, prevMasks := [emptyMask],
    mezoData := some [⟨1, 50, 50, 10⟩], currentCoord := none, nextId := 2 }

/-- C7: the undo history is bounded by 3 at all times — a push appends
the current snapshot and drops the oldest once the size exceeds 3, so
pushes preserve the bound; `pop` happens only on the undo path (an
explicit per-id deletion leaves the history untouched), undo pops exactly
the most recent snapshot; and opening an image resets the history to
empty. -/
theorem undo_history_bounded (h : List Mask) (mk : Mask) (P : Prim) (k : ℕ)
    (s su so : Session) (r : MezoRow) (d : List MezoRow) (nm : Mask) (nid : ℕ)
    (hlen : h.length ≤ 3) (hne : 0 < su.prevMasks.length)
    (hrow : fetchRow RemoveKey.undo (dbRows su) = some r) :
    (pushHistory h mk).length ≤ 3 ∧
    (pushHistory h mk).getLast? = some mk ∧
    (removeMezo P (some (RemoveKey.byId k)) s).prevMasks = s.prevMasks ∧
    (removeMezo P (some RemoveKey.undo) su).prevMasks = su.prevMasks.dropLast ∧
    (removeMezo P (some RemoveKey.undo) su).mask = su.prevMasks.getLast?.getD su.mask ∧
    (openImageSession d nm nid so).prevMasks = [] := by
  refine ⟨?_, ?_, ?_, ?_, ?_, rfl⟩
  · simp only [pushHistory]
    split_ifs with hl
    · simp only [List.length_drop, List.length_append, List.length_singleton]
      omega
    · simp only [List.length_append, List.length_singleton] at hl ⊢
      omega
  · simp only [pushHistory]
    split_ifs with hl
    · match h with
      | [] => simp at hl
      | hd :: t =>
        simp only [List.cons_append, List.drop_succ_cons, List.drop_zero]
        exact List.getLast?_concat _
    · exact List.getLast?_concat _
  · cases hf : fetchRow (RemoveKey.byId k) (dbRows s) with
    | none => simp [removeMezo, hf]
    | some row => simp [removeMezo, hf]
  · simp [removeMezo, hrow, if_pos, hne]
  · simp [removeMezo, hrow, if_pos, hne]

/-- Witness for `undo_history_bounded` at concrete history and sessions. -/
theorem undo_history_bounded_witness :
    (pushHistory [] emptyMask).length ≤ 3 ∧
    (pushHistory [] emptyMask).getLast? = some emptyMask ∧
    (removeMezo simplePrim (some (RemoveKey.byId 1)) snapshotSession).prevMasks =
      snapshotSession.prevMasks ∧
    (removeMezo simplePrim (some RemoveKey.undo) snapshotSession).prevMasks =
      snapshotSession.prevMasks.dropLast ∧
    (removeMezo simplePrim (some RemoveKey.undo) snapshotSession).mask =
      snapshotSession.prevMasks.getLast?.getD snapshotSession.mask ∧
    (openImageSession [] emptyMask 1 snapshotSession).prevMasks = [] :=
  undo_history_bounded [] emptyMask simplePrim 1 snapshotSession snapshotSession
    snapshotSession ⟨1, 50, 50, 10⟩ [] emptyMask 1 (by simp) (by simp [snapshotSession])
    (by simp [snapshotSession, fetchRow, dbRows])

/-- A session with one stored annotation but an *empty* undo history
(for example after reopening an image that already had annotations). -/
def emptyHistorySession : Session :=
  { mask := paintList simplePrim [⟨7, 50, 50, 10⟩] emptyMask, prevMasks := [],
    mezoData := some [⟨7, 50, 50, 10⟩], currentCoord := none, nextId := 8 }

/-- C9 counterexample: invoking Ctrl+Z undo with an empty snapshot
history but a nonempty annotation collection is *not* a no-op: the
most recent record is deleted from the store. -/
theorem undo_empty_history_counterexample :
    emptyHistorySession.prevMasks = [] ∧
    (onKeyboardCtrlZ simplePrim emptyHistorySession).mezoData = some [] ∧
    (onKeyboardCtrlZ simplePrim emptyHistorySession).mezoData ≠
      emptyHistorySession.mezoData := by
  refine ⟨rfl, ?_, ?_⟩
  · simp [onKeyboardCtrlZ, removeMezo, fetchRow, dbRows, emptyHistorySession]
  · simp [onKeyboardCtrlZ, removeMezo, fetchRow, dbRows, emptyHistorySession]

/-- C9 (amended): undo with an empty snapshot history is a no-op only
when the annotation collection is empty or absent (the Ctrl+Z guard);
when annotations exist, undo deletes the record with the greatest
`mezo_id` and rebuilds the mask through the overlap-aware
erase-then-repaint path instead of restoring a snapshot. -/
theorem undo_empty_history_amended (P : Prim) (s : Session) (l : List MezoRow)
    (r : MezoRow) (hprev : s.prevMasks = []) (hmd : s.mezoData = some l)
    (hrow : fetchRow RemoveKey.undo l = some r) :
    (removeMezo P (some RemoveKey.undo) s).mezoData =
      some (l.filter (fun x => !(x.mezoId == r.mezoId))) ∧
    (removeMezo P (some RemoveKey.undo) s).mask =
      recursiveAdding P r (l.filter (fun x => !(x.mezoId == r.mezoId)))
        (recursiveRemoving P r (l.filter (fun x => !(x.mezoId == r.mezoId)))
          (removeMezoFromViewer P r s.mask)) ∧
    (removeMezo P (some RemoveKey.undo) s).prevMasks = [] := by
  have hne : ¬(0 < s.prevMasks.length ∧ RemoveKey.undo = RemoveKey.undo) := by
    rw [hprev]
    simp
  simp [removeMezo, dbRows, hmd, hrow, hne, hprev]

/-- Witness for `undo_empty_history_amended` at `emptyHistorySession`. -/
theorem undo_empty_history_amended_witness :
    (removeMezo simplePrim (some RemoveKey.undo) emptyHistorySession).mezoData =
      some ([⟨7, 50, 50, 10⟩].filter (fun x => !(x.mezoId == (⟨7, 50, 50, 10⟩ : MezoRow).mezoId))) ∧
    (removeMezo simplePrim (some RemoveKey.undo) emptyHistorySession).mask =
      recursiveAdding simplePrim ⟨7, 50, 50, 10⟩
        ([⟨7, 50, 50, 10⟩].filter (fun x => !(x.mezoId == (⟨7, 50, 50, 10⟩ : MezoRow).mezoId)))
        (recursiveRemoving simplePrim ⟨7, 50, 50, 10⟩
          ([⟨7, 50, 50, 10⟩].filter (fun x => !(x.mezoId == (⟨7, 50, 50, 10⟩ : MezoRow).mezoId)))
          (removeMezoFromViewer simplePrim ⟨7, 50, 50, 10⟩ emptyHistorySession.mask)) ∧
    (removeMezo simplePrim (some RemoveKey.undo) emptyHistorySession).prevMasks = [] :=
  undo_empty_history_amended simplePrim emptyHistorySession [⟨7, 50, 50, 10⟩]
    ⟨7, 50, 50, 10⟩ rfl rfl (by simp [fetchRow])

/-- `circles_intersect` is symmetric (the distance and the radius sum do
not depend on the argument order). -/
lemma circlesIntersect_comm (c1 c2 : ℚ × ℚ × ℚ) :
    circlesIntersect c1 c2 = circlesIntersect c2 c1 := by
  unfold circlesIntersect
  have h1 : (c2.1 - c1.1) ^ 2 + (c2.2.1 - c1.2.1) ^ 2 =
      (c1.1 - c2.1) ^ 2 + (c1.2.1 - c2.2.1) ^ 2 := by ring
  have h2 : (c1.2.2 + c2.2.2) ^ 2 = (c2.2.2 + c1.2.2) ^ 2 := by ring
  rw [h1, h2]

/-- Compositing a fully transparent overlay pixel: the "over" operator
returns the bottom pixel unchanged when its alpha is nonzero, and the
all-zero pixel when both layers are transparent. -/
lemma alphaOver_transparent (c : Color) :
    alphaOver c initColor = if c.a = 0 then zeroColor else c := by
  rcases c with ⟨r, g, b, a⟩
  unfold alphaOver initColor zeroColor
  simp only
  have hao : (0 : ℚ) + a * (255 - 0) / 255 = a := by ring
  rw [hao]
  by_cases ha : a = 0
  · rw [if_pos ha, if_pos ha]
  · rw [if_neg ha, if_neg ha]
    simp only [Color.mk.injEq]
    refine ⟨?_, ?_, ?_, trivial⟩ <;> field_simp

/-- Both layers transparent white: "over" yields the all-zero pixel. -/
lemma alphaOver_init_init : alphaOver initColor initColor = zeroColor := by
  rw [alphaOver_transparent]
  simp [initColor]

/-- All-zero pixel under a transparent overlay stays all-zero. -/
lemma alphaOver_zero_init : alphaOver zeroColor initColor = zeroColor := by
  rw [alphaOver_transparent]
  simp [zeroColor]

/-- C1: the overlap-aware removal path (`remove_mezo` with an integer
key — no cached snapshot is ever consulted there), applied to a mask on
which exactly the circles `A`, `B`, `C` were painted, where `A`
intersects `B` and `B` intersects `C` but `A` does not intersect `C`
(`intersect` = center distance strictly below the radius sum): removing
`B` erases the whole intersection closure `{B, A, C}` and repaints `A`
then `C`, leaving the mask pixel-identical to a mask on which only `A`
and `C` were ever painted, and the store holding exactly `[A, C]`. -/
theorem overlap_removal_three_circles (P : Prim) (A B C : MezoRow) (s : Session)
    (hsA : overlaySupported P A) (hsB : overlaySupported P B) (hsC : overlaySupported P C)
    (hAB : circlesIntersect (mezoCircle A) (mezoCircle B) = true)
    (hBC : circlesIntersect (mezoCircle B) (mezoCircle C) = true)
    (hAC : circlesIntersect (mezoCircle A) (mezoCircle C) = false)
    (hABi : A.mezoId ≠ B.mezoId) (hCBi : C.mezoId ≠ B.mezoId)
    (hmez : s.mezoData = some [A, B, C])
    (hmask : s.mask = paintList P [A, B, C] emptyMask) :
    (removeMezo P (some (RemoveKey.byId B.mezoId)) s).mask =
      paintList P [A, C] emptyMask ∧
    (removeMezo P (some (RemoveKey.byId B.mezoId)) s).mezoData = some [A, C] := by
  have hBA : circlesIntersect (mezoCircle B) (mezoCircle A) = true := by
    rw [circlesIntersect_comm]; exact hAB
  have hCA : circlesIntersect (mezoCircle C) (mezoCircle A) = false := by
    rw [circlesIntersect_comm]; exact hAC
  have hAb : (A.mezoId == B.mezoId) = false := beq_eq_false_iff_ne.mpr hABi
  have hCb : (C.mezoId == B.mezoId) = false := beq_eq_false_iff_ne.mpr hCBi
  have hfetch : fetchRow (RemoveKey.byId B.mezoId) (dbRows s) = some B := by
    unfold fetchRow dbRows
    rw [hmez]
    simp [List.find?, hAb]
  have hfilter : List.filter (fun r => !(r.mezoId == B.mezoId)) (dbRows s) = [A, C] := by
    unfold dbRows
    rw [hmez]
    simp [List.filter, hAb, hCb]
  have hbranch : ¬(0 < s.prevMasks.length ∧ RemoveKey.byId B.mezoId = RemoveKey.undo) := by
    rintro ⟨-, hx⟩
    cases hx
  have hrem : ∀ m : Mask, recursiveRemoving P B [A, C] m =
      removeMezoFromViewer P C (removeMezoFromViewer P A m) := by
    intro m
    unfold recursiveRemoving
    simp [recursiveRemovingAux, hBA, hBC, hCA, hAC]
  have hadd : ∀ m : Mask, recursiveAdding P B [A, C] m =
      paintPx P C.centerX C.centerY (C.diameter / 2)
        (paintPx P A.centerX A.centerY (A.diameter / 2) m) := by
    intro m
    unfold recursiveAdding
    simp [recursiveAddingAux, hBA, hBC, hCA, hAC]
  constructor
  · simp only [removeMezo, hfetch, hfilter]
    rw [if_neg hbranch]
    simp only [hrem, hadd, hmask]
    funext p
    simp only [paintList, List.foldl, paintPx, removeMezoFromViewer, erasePx, emptyMask]
    by_cases hdA : P.discPx A.centerX A.centerY (A.diameter / 2) p = true
    · simp [hdA]
    · by_cases hdB : P.discPx B.centerX B.centerY (B.diameter / 2) p = true
      · simp [hdA, hdB]
      · by_cases hdC : P.discPx C.centerX C.centerY (C.diameter / 2) p = true
        · simp [hdA, hdB, hdC]
        · rw [Bool.not_eq_true] at hdA hdB hdC
          rw [hsA p hdA, hsB p hdB, hsC p hdC]
          simp [hdA, hdB, hdC, alphaOver_init_init, alphaOver_zero_init]
  · simp only [removeMezo, hfetch, hfilter]
    rw [if_neg hbranch]

/-- Concrete circles of the witness: `A` at `(0, 0)`, `B` at `(6, 0)`,
`C` at `(12, 0)`, all of diameter 8 — center distances 6 and 12 against
a radius sum of 8, so `A` meets `B`, `B` meets `C`, `A` misses `C`. -/
def rowA : MezoRow := ⟨1, 0, 0, 8⟩

/-- Middle circle of the three-circle witness. -/
def rowB : MezoRow := ⟨2, 6, 0, 8⟩

/-- Right circle of the three-circle witness. -/
def rowC : MezoRow := ⟨3, 12, 0, 8⟩

/-- The witness session: the three circles stored in insertion order and
painted on a fresh mask, with nothing else ever drawn. -/
def threeCircleSession : Session :=
  { mask := paintList simplePrim [rowA, rowB, rowC] emptyMask, prevMasks := [],
    mezoData := some [rowA, rowB, rowC], currentCoord := none, nextId := 4 }

/-- The witness rasteriser paints nothing outside the erase disc. -/
lemma simplePrim_supported (row : MezoRow) : overlaySupported simplePrim row := by
  intro p hp
  simp only [simplePrim] at hp ⊢
  rw [if_neg (by simpa using hp)]

/-- Witness for `overlap_removal_three_circles` at the concrete
three-circle chain. -/
theorem overlap_removal_three_circles_witness :
    (removeMezo simplePrim (some (RemoveKey.byId 2)) threeCircleSession).mask =
      paintList simplePrim [rowA, rowC] emptyMask ∧
    (removeMezo simplePrim (some (RemoveKey.byId 2)) threeCircleSession).mezoData =
      some [rowA, rowC] :=
  overlap_removal_three_circles simplePrim rowA rowB rowC threeCircleSession
    (simplePrim_supported rowA) (simplePrim_supported rowB) (simplePrim_supported rowC)
    (by norm_num [circlesIntersect, mezoCircle, rowA, rowB, rowC])
    (by norm_num [circlesIntersect, mezoCircle, rowA, rowB, rowC])
    (by norm_num [circlesIntersect, mezoCircle, rowA, rowB, rowC])
    (by decide) (by decide) rfl rfl

end Mezo
